import Mathlib

/-!
Verification of the deadline-classifier and list-filter logic of the
school todo application (`src/app.py`).

Modelling conventions:
* Calendar dates carry no time component in the application, so a date is
  represented as an integer day number; Python's `(d1 - d2).days` becomes
  integer subtraction and `d + timedelta(days=n)` becomes `d + n`.
* The relational task store is modelled as a `List Task` in insertion
  (primary-key) order; `query.order_by(Task.due_date.asc())` is modelled as a
  stable sort of that list by `due_date`.
* Request handlers that answer 404 (via `get_or_404`) or let a parse
  exception propagate (so that nothing is committed) return `Option`,
  with `none` for the failing request.
-/

namespace SchoolTodo

/-- Mirror of the `Task` model (src/app.py lines 50-58).  `due_date` is a
day number; all other fields are as in the source. -/
structure Task where
  id : Nat
  title : String
  task_type : String
  subject : String
  due_date : Int
  description : String
  is_done : Bool
  priority : String
deriving DecidableEq

/-- Mirror of `Task.is_overdue` (src/app.py lines 60-61); the reference
date obtained from `datetime.today().date()` is passed explicitly. -/
def Task.is_overdue (t : Task) (today : Int) : Bool :=
  !t.is_done && decide (t.due_date < today)

/-- Mirror of `Task.is_soon` (src/app.py lines 63-67). -/
def Task.is_soon (t : Task) (today : Int) : Bool :=
  let delta := t.due_date - today
  !t.is_done && (decide (0 ≤ delta) && decide (delta ≤ 1))

/-- The five overview buckets (keys of the `overview` dict, src/app.py
lines 143-149). -/
inductive Bucket where
  | overdue
  | today
  | week
  | two_weeks
  | later
deriving DecidableEq

/-- The if/elif chain of the bucketing loop (src/app.py lines 151-162):
which bucket a task is appended to, as a function of the reference date. -/
def classify (today : Int) (t : Task) : Bucket :=
  let delta := t.due_date - today
  if delta < 0 then .overdue
  else if delta = 0 then .today
  else if delta ≤ 7 then .week
  else if delta ≤ 14 then .two_weeks
  else .later

/-- The `overview` dict: one task list per bucket. -/
structure Overview where
  overdue : List Task
  today : List Task
  week : List Task
  two_weeks : List Task
  later : List Task
deriving DecidableEq

/-- Look up one bucket's list in an overview. -/
def Overview.get (ov : Overview) (b : Bucket) : List Task :=
  match b with
  | .overdue => ov.overdue
  | .today => ov.today
  | .week => ov.week
  | .two_weeks => ov.two_weeks
  | .later => ov.later

/-- One iteration of the bucketing loop (src/app.py lines 151-162):
append the task to the bucket chosen by the if/elif chain. -/
def addToOverview (today : Int) (ov : Overview) (t : Task) : Overview :=
  match classify today t with
  | .overdue => { ov with overdue := ov.overdue ++ [t] }
  | .today => { ov with today := ov.today ++ [t] }
  | .week => { ov with week := ov.week ++ [t] }
  | .two_weeks => { ov with two_weeks := ov.two_weeks ++ [t] }
  | .later => { ov with later := ov.later ++ [t] }

/-- The whole bucketing loop: fold over the task list starting from the
empty overview dict. -/
def buildOverview (today : Int) (ts : List Task) : Overview :=
  ts.foldl (addToOverview today) ⟨[], [], [], [], []⟩

/-- The dashboard overview of `index` (src/app.py lines 140-162): the
base query is restricted to `is_done = false` and then bucketed. -/
def overviewOf (today : Int) (base : List Task) : Overview :=
  buildOverview today (base.filter (fun t => !t.is_done))

/-- Subject scoping of the base query (src/app.py lines 133-135):
a non-empty (truthy) `subject` parameter restricts to exact matches. -/
def applySubjectFilter (subject_filter : String) (ts : List Task) : List Task :=
  if subject_filter = ("") then ts
  else ts.filter (fun t => t.subject == subject_filter)

/-- The `if range_filter:` branch of `index` (src/app.py lines 167-186):
completed tasks are dropped, then the recognized tokens add a date
restriction; an unrecognized token adds none. -/
def applyRangeFilter (today : Int) (range_filter : String) (ts : List Task) : List Task :=
  let q := ts.filter (fun t => !t.is_done)
  if range_filter = ("overdue") then
    q.filter (fun t => decide (t.due_date < today))
  else if range_filter = ("today") then
    q.filter (fun t => t.due_date == today)
  else if range_filter = ("week") then
    q.filter (fun t => decide (today ≤ t.due_date) && decide (t.due_date ≤ today + 7))
  else if range_filter = ("two_weeks") then
    q.filter (fun t => decide (today ≤ t.due_date) && decide (t.due_date ≤ today + 14))
  else if range_filter = ("later") then
    q.filter (fun t => decide (today + 14 < t.due_date))
  else
    q

/-- Comparison used by `order_by(Task.due_date.asc())`. -/
def dueLe (a b : Task) : Bool :=
  decide (a.due_date ≤ b.due_date)

/-- Model of `query.order_by(Task.due_date.asc()).all()` over the
list-shaped store: a stable sort ascending by `due_date`. -/
def sortByDueDate (ts : List Task) : List Task :=
  ts.mergeSort dueLe

/-- The main task list of `index` (src/app.py lines 164-192): subject
scoping, then either the range branch or the `show_done` rule, then the
ascending sort by due date. -/
def listTasks (today : Int) (show_done : Bool) (subject_filter range_filter : String)
    (store : List Task) : List Task :=
  let base := applySubjectFilter subject_filter store
  let q :=
    if range_filter = ("") then
      if !show_done then base.filter (fun t => !t.is_done) else base
    else
      applyRangeFilter today range_filter base
  sortByDueDate q

/-- Everything the `index` route computes from the store and the query
parameters: the bucketed overview and the ordered task list. -/
def index (today : Int) (show_done : Bool) (subject_filter range_filter : String)
    (store : List Task) : Overview × List Task :=
  (overviewOf today (applySubjectFilter subject_filter store),
   listTasks today show_done subject_filter range_filter store)

/-- Predicate used in specification statements: the task passes the
subject filter (empty filter, or exact match). -/
def subjectOk (subject_filter : String) (t : Task) : Prop :=
  subject_filter = ("") ∨ t.subject = subject_filter

instance (sf : String) (t : Task) : Decidable (subjectOk sf t) := by
  unfold subjectOk
  infer_instance

/-- Leading-whitespace removal on a character list. -/
def dropLeadingWS : List Char → List Char
  | [] => []
  | c :: cs => if c.isWhitespace then dropLeadingWS cs else c :: cs

/-- Model of Python's `str.strip()` as used on the form fields: remove
leading and trailing whitespace.  (Structurally recursive, unlike
`String.trim`, so that concrete counterexamples and witnesses evaluate
inside the kernel.) -/
def pyStrip (s : String) : String :=
  String.mk ((dropLeadingWS (dropLeadingWS s.data).reverse).reverse)

/-- Form data submitted to the add/edit routes.  `title`, `task_type`
and `subject` are required fields (`request.form[...]`); `description`
and `priority` use `request.form.get` with a default, modelled as
`Option`.  `due_date` holds the result of
`datetime.strptime(due_date_str, "%Y-%m-%d")`, whose string parsing is
delegated to the external datetime library: `none` means the string did
not parse, in which case the exception propagates and nothing is
committed. -/
structure TaskForm where
  title : String
  task_type : String
  subject : String
  due_date : Option Int
  description : Option String
  priority : Option String
deriving DecidableEq

/-- Normalization of the priority field
(`request.form.get("priority", "obvezno").strip() or "obvezno"`,
src/app.py lines 213 and 243): Python's falsy `or` makes a blank value
fall back to the default. -/
def normalizedPriority (p : Option String) : String :=
  let s := pyStrip (p.getD ("obvezno"))
  if s = ("") then ("obvezno") else s

/-- The task constructed by the POST branch of `add_task`
(src/app.py lines 207-225); `id` is assigned by the store. -/
def newTask (id : Nat) (form : TaskForm) : Option Task :=
  form.due_date.map fun d =>
    { id := id
      title := pyStrip form.title
      task_type := pyStrip form.task_type
      subject := pyStrip form.subject
      due_date := d
      description := pyStrip (form.description.getD (""))
      is_done := false
      priority := normalizedPriority form.priority }

/-- The `add_task` route (src/app.py lines 205-228): on success the new
task is appended to the store; a date parse failure commits nothing. -/
def add_task (store : List Task) (id : Nat) (form : TaskForm) : Option (List Task) :=
  (newTask id form).map fun t => store ++ [t]

/-- Field updates performed by the POST branch of `edit_task`
(src/app.py lines 237-245), given the parsed due date. -/
def applyEdit (form : TaskForm) (d : Int) (t : Task) : Task :=
  { t with
    title := pyStrip form.title
    task_type := pyStrip form.task_type
    subject := pyStrip form.subject
    description := pyStrip (form.description.getD (""))
    priority := normalizedPriority form.priority
    due_date := d }

/-- The `edit_task` route (src/app.py lines 233-248): 404 when the id
does not exist; a date parse failure aborts before commit. -/
def edit_task (store : List Task) (task_id : Nat) (form : TaskForm) : Option (List Task) :=
  if store.any (fun t => t.id == task_id) then
    form.due_date.map fun d =>
      store.map fun t => if t.id == task_id then applyEdit form d t else t
  else
    none

/-- The `mark_done` route (src/app.py lines 262-267): 404 when the id
does not exist, otherwise set `is_done := true` on that task. -/
def mark_done (store : List Task) (task_id : Nat) : Option (List Task) :=
  if store.any (fun t => t.id == task_id) then
    some (store.map fun t => if t.id == task_id then { t with is_done := true } else t)
  else
    none

/-- The `mark_undone` route (src/app.py lines 270-275): 404 when the id
does not exist, otherwise set `is_done := false` on that task. -/
def mark_undone (store : List Task) (task_id : Nat) : Option (List Task) :=
  if store.any (fun t => t.id == task_id) then
    some (store.map fun t => if t.id == task_id then { t with is_done := false } else t)
  else
    none

/-! ### Sample data used by witnesses and counterexamples -/

/-- A sample unfinished task due on day 0. -/
def tOpen : Task :=
  { id := 1, title := "naloga", task_type := "Vaja", subject := "Matematika",
    due_date := 0, description := "", is_done := false, priority := "obvezno" }

/-- A sample completed task due on day 0. -/
def tDone : Task :=
  { id := 2, title := "stara", task_type := "Kviz iz vaj", subject := "Fizika",
    due_date := 0, description := "", is_done := true, priority := "obvezno" }

/-! ### Characterization of the overview buckets -/

lemma get_addToOverview (today : Int) (ov : Overview) (t : Task) (b : Bucket) :
    (addToOverview today ov t).get b =
      if classify today t = b then ov.get b ++ [t] else ov.get b := by
  unfold addToOverview
  cases h : classify today t <;> cases b <;> simp [Overview.get]

lemma get_foldl_addToOverview (today : Int) (ts : List Task) (ov : Overview) (b : Bucket) :
    (ts.foldl (addToOverview today) ov).get b =
      ov.get b ++ ts.filter (fun t => classify today t == b) := by
  induction ts generalizing ov with
  | nil => simp
  | cons t ts ih =>
    simp only [List.foldl_cons, List.filter_cons]
    rw [ih]
    by_cases h : classify today t = b
    · simp [get_addToOverview, h]
    · simp [get_addToOverview, h]

lemma get_overviewOf (today : Int) (base : List Task) (b : Bucket) :
    (overviewOf today base).get b =
      (base.filter (fun t => !t.is_done)).filter (fun t => classify today t == b) := by
  have h := get_foldl_addToOverview today (base.filter (fun t => !t.is_done)) ⟨[], [], [], [], []⟩ b
  have hnil : (Overview.mk [] [] [] [] []).get b = [] := by cases b <;> rfl
  rw [overviewOf, buildOverview, h, hnil, List.nil_append]

lemma mem_get_overviewOf {today : Int} {base : List Task} {b : Bucket} {t : Task} :
    t ∈ (overviewOf today base).get b ↔ t ∈ base ∧ t.is_done = false ∧ classify today t = b := by
  simp only [get_overviewOf, List.mem_filter, Bool.not_eq_true', beq_iff_eq]
  tauto

/-- C1: for every reference date and input set, the five buckets contain
only tasks with `is_done = false`, are pairwise disjoint, and their union
is exactly the non-completed subset of the input set. -/
theorem overview_buckets_partition (today : Int) (base : List Task) :
    (∀ b t, t ∈ (overviewOf today base).get b → t.is_done = false) ∧
    (∀ b b' t, b ≠ b' →
      t ∈ (overviewOf today base).get b → t ∉ (overviewOf today base).get b') ∧
    (∀ t, (∃ b, t ∈ (overviewOf today base).get b) ↔ t ∈ base ∧ t.is_done = false) := by
  refine ⟨?_, ?_, ?_⟩
  · intro b t ht
    exact (mem_get_overviewOf.mp ht).2.1
  · intro b b' t hne ht ht'
    exact hne ((mem_get_overviewOf.mp ht).2.2.symm.trans (mem_get_overviewOf.mp ht').2.2)
  · intro t
    constructor
    · rintro ⟨b, hb⟩
      exact ⟨(mem_get_overviewOf.mp hb).1, (mem_get_overviewOf.mp hb).2.1⟩
    · rintro ⟨h1, h2⟩
      exact ⟨classify today t, mem_get_overviewOf.mpr ⟨h1, h2, rfl⟩⟩

theorem overview_buckets_partition_witness : tOpen.is_done = false :=
  (overview_buckets_partition 0 [tOpen]).1 Bucket.today tOpen (by decide)

/-- C4: for a non-completed task with `delta = due_date - reference`,
`delta = 0` lands in `today` (never `overdue` nor `week`), `delta = 7`
in `week`, `delta = 8` and `delta = 14` in `two_weeks`, `delta = 15` in
`later`. -/
theorem bucket_boundaries (today : Int) (base : List Task) (t : Task)
    (hmem : t ∈ base) (hdone : t.is_done = false) :
    (t.due_date - today = 0 →
      t ∈ (overviewOf today base).get Bucket.today ∧
      t ∉ (overviewOf today base).get Bucket.overdue ∧
      t ∉ (overviewOf today base).get Bucket.week) ∧
    (t.due_date - today = 7 → t ∈ (overviewOf today base).get Bucket.week) ∧
    (t.due_date - today = 8 → t ∈ (overviewOf today base).get Bucket.two_weeks) ∧
    (t.due_date - today = 14 → t ∈ (overviewOf today base).get Bucket.two_weeks) ∧
    (t.due_date - today = 15 → t ∈ (overviewOf today base).get Bucket.later) := by
  have hin : ∀ b, classify today t = b → t ∈ (overviewOf today base).get b := fun b hb =>
    mem_get_overviewOf.mpr ⟨hmem, hdone, hb⟩
  have hout : ∀ b, classify today t ≠ b → t ∉ (overviewOf today base).get b := fun b hb hm =>
    hb (mem_get_overviewOf.mp hm).2.2
  refine ⟨?_, ?_, ?_, ?_, ?_⟩ <;> intro h
  · have hc : classify today t = Bucket.today := by simp [classify, h]
    exact ⟨hin _ hc, hout _ (by rw [hc]; decide), hout _ (by rw [hc]; decide)⟩
  · exact hin _ (by simp [classify, h])
  · exact hin _ (by simp [classify, h])
  · exact hin _ (by simp [classify, h])
  · exact hin _ (by simp [classify, h])

theorem bucket_boundaries_witness :
    tOpen ∈ (overviewOf 0 [tOpen]).get Bucket.today ∧
    tOpen ∉ (overviewOf 0 [tOpen]).get Bucket.overdue ∧
    tOpen ∉ (overviewOf 0 [tOpen]).get Bucket.week :=
  (bucket_boundaries 0 [tOpen] tOpen (by decide) (by decide)).1 (by decide)

/-- C5: `is_overdue` holds iff the task is not done and due strictly
before today; `is_soon` holds iff the task is not done and due today or
tomorrow, hence is false for a task due in 2 days. -/
theorem display_predicates (t : Task) (today : Int) :
    (t.is_overdue today = true ↔ t.is_done = false ∧ t.due_date < today) ∧
    (t.is_soon today = true ↔
      t.is_done = false ∧ 0 ≤ t.due_date - today ∧ t.due_date - today ≤ 1) ∧
    (t.due_date - today = 2 → t.is_soon today = false) := by
  refine ⟨?_, ?_, ?_⟩
  · simp [Task.is_overdue, Bool.and_eq_true, Bool.not_eq_true']
  · simp [Task.is_soon, Bool.and_eq_true, Bool.not_eq_true', and_assoc]
  · intro h
    simp [Task.is_soon, h]

theorem display_predicates_witness : tOpen.is_overdue 1 = true :=
  (display_predicates tOpen 1).1.mpr ⟨rfl, by decide⟩

/-- C9: with a non-empty subject filter the overview buckets contain
only tasks whose subject equals it exactly, and the `range` parameter
has no effect on the overview. -/
theorem overview_subject_scoped (today : Int) (sd : Bool)
    (sf rf : String) (store : List Task) :
    (sf ≠ ("") → ∀ b t, t ∈ ((index today sd sf rf store).1).get b → t.subject = sf) ∧
    (∀ rf', (index today sd sf rf store).1 = (index today sd sf rf' store).1) := by
  constructor
  · intro hsf b t ht
    simp only [index] at ht
    have h1 := (mem_get_overviewOf.mp ht).1
    unfold applySubjectFilter at h1
    rw [if_neg hsf] at h1
    simpa using (List.mem_filter.mp h1).2
  · intro rf'
    rfl

theorem overview_subject_scoped_witness : tOpen.subject = ("Matematika") :=
  (overview_subject_scoped 0 false ("Matematika") ("") [tOpen]).1 (by decide)
    Bucket.today tOpen (by decide)

/-! ### Characterization of the main task list -/

lemma mem_sortByDueDate {t : Task} {l : List Task} : t ∈ sortByDueDate l ↔ t ∈ l :=
  List.mem_mergeSort

lemma mem_applySubjectFilter {sf : String} {ts : List Task} {t : Task} :
    t ∈ applySubjectFilter sf ts ↔ t ∈ ts ∧ subjectOk sf t := by
  unfold applySubjectFilter subjectOk
  by_cases h : sf = ("")
  · simp [h]
  · simp [h, List.mem_filter]

lemma mem_applyRangeFilter_overdue {today : Int} {ts : List Task} {t : Task} :
    t ∈ applyRangeFilter today ("overdue") ts ↔
      t ∈ ts ∧ t.is_done = false ∧ t.due_date < today := by
  simp [applyRangeFilter, List.mem_filter, Bool.not_eq_true', and_assoc]
  all_goals tauto

lemma mem_applyRangeFilter_today {today : Int} {ts : List Task} {t : Task} :
    t ∈ applyRangeFilter today ("today") ts ↔
      t ∈ ts ∧ t.is_done = false ∧ t.due_date = today := by
  simp [applyRangeFilter, List.mem_filter, Bool.not_eq_true', and_assoc]
  all_goals tauto

lemma mem_applyRangeFilter_week {today : Int} {ts : List Task} {t : Task} :
    t ∈ applyRangeFilter today ("week") ts ↔
      t ∈ ts ∧ t.is_done = false ∧ today ≤ t.due_date ∧ t.due_date ≤ today + 7 := by
  simp [applyRangeFilter, List.mem_filter, Bool.not_eq_true', and_assoc]
  all_goals tauto

lemma mem_applyRangeFilter_two_weeks {today : Int} {ts : List Task} {t : Task} :
    t ∈ applyRangeFilter today ("two_weeks") ts ↔
      t ∈ ts ∧ t.is_done = false ∧ today ≤ t.due_date ∧ t.due_date ≤ today + 14 := by
  simp [applyRangeFilter, List.mem_filter, Bool.not_eq_true', and_assoc]
  all_goals tauto

lemma mem_applyRangeFilter_later {today : Int} {ts : List Task} {t : Task} :
    t ∈ applyRangeFilter today ("later") ts ↔
      t ∈ ts ∧ t.is_done = false ∧ today + 14 < t.due_date := by
  simp [applyRangeFilter, List.mem_filter, Bool.not_eq_true', and_assoc]
  all_goals tauto

lemma mem_applyRangeFilter_other {today : Int} {rf : String} {ts : List Task} {t : Task}
    (h1 : rf ≠ ("overdue")) (h2 : rf ≠ ("today")) (h3 : rf ≠ ("week"))
    (h4 : rf ≠ ("two_weeks")) (h5 : rf ≠ ("later")) :
    t ∈ applyRangeFilter today rf ts ↔ t ∈ ts ∧ t.is_done = false := by
  simp [applyRangeFilter, h1, h2, h3, h4, h5, List.mem_filter, Bool.not_eq_true']

lemma listTasks_range {today : Int} {sd : Bool} {sf rf : String} {ts : List Task}
    (h : rf ≠ ("")) :
    listTasks today sd sf rf ts =
      sortByDueDate (applyRangeFilter today rf (applySubjectFilter sf ts)) := by
  simp [listTasks, h]

lemma listTasks_no_range_show (today : Int) (sf : String) (ts : List Task) :
    listTasks today true sf ("") ts = sortByDueDate (applySubjectFilter sf ts) := by
  simp [listTasks]

lemma listTasks_no_range_hide (today : Int) (sf : String) (ts : List Task) :
    listTasks today false sf ("") ts =
      sortByDueDate ((applySubjectFilter sf ts).filter (fun t => !t.is_done)) := by
  simp [listTasks]

lemma listTasks_show_done_irrel {today : Int} {sf rf : String} {ts : List Task}
    (h : rf ≠ ("")) (sd sd' : Bool) :
    listTasks today sd sf rf ts = listTasks today sd' sf rf ts := by
  rw [listTasks_range h, listTasks_range h]

/-- C3: with a recognized range token the list is exactly the
subject-matching, non-completed tasks satisfying the token's date
condition, and `show_done` has no effect. -/
theorem range_filter_semantics (today : Int) (sd : Bool) (sf : String)
    (ts : List Task) (t : Task) :
    (t ∈ listTasks today sd sf ("overdue") ts ↔
      t ∈ ts ∧ subjectOk sf t ∧ t.is_done = false ∧ t.due_date < today) ∧
    (t ∈ listTasks today sd sf ("today") ts ↔
      t ∈ ts ∧ subjectOk sf t ∧ t.is_done = false ∧ t.due_date = today) ∧
    (t ∈ listTasks today sd sf ("week") ts ↔
      t ∈ ts ∧ subjectOk sf t ∧ t.is_done = false ∧
        today ≤ t.due_date ∧ t.due_date ≤ today + 7) ∧
    (t ∈ listTasks today sd sf ("two_weeks") ts ↔
      t ∈ ts ∧ subjectOk sf t ∧ t.is_done = false ∧
        today ≤ t.due_date ∧ t.due_date ≤ today + 14) ∧
    (t ∈ listTasks today sd sf ("later") ts ↔
      t ∈ ts ∧ subjectOk sf t ∧ t.is_done = false ∧ today + 14 < t.due_date) ∧
    (∀ rf, rf ∈ (["overdue", "today", "week", "two_weeks", "later"] : List String) →
      listTasks today true sf rf ts = listTasks today false sf rf ts) := by
  refine ⟨?_, ?_, ?_, ?_, ?_, ?_⟩
  · rw [listTasks_range (by decide), mem_sortByDueDate, mem_applyRangeFilter_overdue,
      mem_applySubjectFilter]
    tauto
  · rw [listTasks_range (by decide), mem_sortByDueDate, mem_applyRangeFilter_today,
      mem_applySubjectFilter]
    tauto
  · rw [listTasks_range (by decide), mem_sortByDueDate, mem_applyRangeFilter_week,
      mem_applySubjectFilter]
    tauto
  · rw [listTasks_range (by decide), mem_sortByDueDate, mem_applyRangeFilter_two_weeks,
      mem_applySubjectFilter]
    tauto
  · rw [listTasks_range (by decide), mem_sortByDueDate, mem_applyRangeFilter_later,
      mem_applySubjectFilter]
    tauto
  · intro rf hrf
    simp only [List.mem_cons, List.not_mem_nil, or_false] at hrf
    rcases hrf with rfl | rfl | rfl | rfl | rfl <;>
      exact listTasks_show_done_irrel (by decide) true false

theorem range_filter_semantics_witness :
    tOpen ∈ listTasks 5 false ("") ("overdue") [tOpen] :=
  ((range_filter_semantics 5 false ("") [tOpen] tOpen).1).mpr
    ⟨by decide, Or.inl rfl, rfl, by decide⟩

/-- C2 counterexample: with `show_done = true` and the unrecognized
token `"bogus"` the completed task is dropped, whereas with no range
restriction it is listed — so an unrecognized token does NOT behave as
if no range restriction were supplied. -/
theorem unrecognized_range_counterexample :
    listTasks 0 true ("") ("bogus") [tDone] = [] ∧
    listTasks 0 true ("") ("") [tDone] = [tDone] := by
  constructor
  · rw [listTasks_range (by decide)]
    simp [applySubjectFilter, applyRangeFilter, tDone, sortByDueDate]
  · rw [listTasks_no_range_show]
    simp [applySubjectFilter, sortByDueDate]

/-- C2 (amended): a non-empty unrecognized range token still enters the
range branch, so the result is exactly the subject-matching tasks with
`is_done = false` (no due-date restriction), and `show_done` has no
effect on it. -/
theorem unrecognized_range_semantics (today : Int) (sd : Bool) (sf rf : String)
    (ts : List Task) (t : Task) (h1 : rf ≠ (""))
    (h2 : rf ∉ (["overdue", "today", "week", "two_weeks", "later"] : List String)) :
    (t ∈ listTasks today sd sf rf ts ↔ t ∈ ts ∧ subjectOk sf t ∧ t.is_done = false) ∧
    listTasks today sd sf rf ts = listTasks today (!sd) sf rf ts := by
  simp only [List.mem_cons, List.not_mem_nil, or_false, not_or] at h2
  obtain ⟨g1, g2, g3, g4, g5⟩ := h2
  constructor
  · rw [listTasks_range h1, mem_sortByDueDate,
      mem_applyRangeFilter_other g1 g2 g3 g4 g5, mem_applySubjectFilter]
    tauto
  · exact listTasks_show_done_irrel h1 sd (!sd)

theorem unrecognized_range_semantics_witness :
    tOpen ∈ listTasks 0 true ("") ("bogus") [tOpen] :=
  ((unrecognized_range_semantics 0 true ("") ("bogus") [tOpen] tOpen
    (by decide) (by decide)).1).mpr ⟨by decide, Or.inl rfl, rfl⟩

/-! ### Sorting facts -/

lemma dueLe_trans : ∀ (a b c : Task), dueLe a b → dueLe b c → dueLe a c := by
  intro a b c hab hbc
  simp only [dueLe, decide_eq_true_eq] at hab hbc ⊢
  omega

lemma dueLe_total : ∀ (a b : Task), dueLe a b || dueLe b a := by
  intro a b
  simp only [dueLe, Bool.or_eq_true, decide_eq_true_eq]
  omega

lemma pairwise_sortByDueDate (l : List Task) :
    (sortByDueDate l).Pairwise (fun a b => a.due_date ≤ b.due_date) := by
  have h := List.sorted_mergeSort dueLe_trans dueLe_total l
  exact h.imp (by intro a b hab; simpa [dueLe] using hab)

lemma filter_sortByDueDate (l : List Task) (p : Task → Bool)
    (hp : ∀ a b, p a = true → p b = true → dueLe a b = true) :
    (sortByDueDate l).filter p = l.filter p := by
  have hpw : (l.filter p).Pairwise (fun a b => dueLe a b) :=
    List.pairwise_of_forall_mem_list (fun a ha b hb =>
      hp a b (List.of_mem_filter ha) (List.of_mem_filter hb))
  have hsub : List.Sublist (l.filter p) (sortByDueDate l) :=
    List.sublist_mergeSort dueLe_trans dueLe_total hpw (List.filter_sublist l)
  have hsub2 : List.Sublist (l.filter p) ((sortByDueDate l).filter p) := by
    have h := hsub.filter p
    simpa [List.filter_filter] using h
  have hlen : ((sortByDueDate l).filter p).length = (l.filter p).length :=
    ((List.mergeSort_perm l dueLe).filter p).length_eq
  exact (hsub2.eq_of_length hlen.symm).symm

/-- C6: with no range token, `show_done = false` hides completed tasks
and `show_done = true` lists every task; the result is sorted ascending
by `due_date`, and tasks with equal due dates keep their original
insertion order. -/
theorem no_range_listing (today : Int) (ts : List Task) (d : Int) (t : Task) :
    (t ∈ listTasks today false ("") ("") ts ↔ t ∈ ts ∧ t.is_done = false) ∧
    (t ∈ listTasks today true ("") ("") ts ↔ t ∈ ts) ∧
    (∀ sd : Bool, (listTasks today sd ("") ("") ts).Pairwise
      (fun a b => a.due_date ≤ b.due_date)) ∧
    ((listTasks today true ("") ("") ts).filter (fun u => u.due_date == d) =
      ts.filter (fun u => u.due_date == d)) ∧
    ((listTasks today false ("") ("") ts).filter (fun u => u.due_date == d) =
      (ts.filter (fun u => !u.is_done)).filter (fun u => u.due_date == d)) := by
  have htie : ∀ a b : Task, (a.due_date == d) = true → (b.due_date == d) = true →
      dueLe a b = true := by
    intro a b ha hb
    simp only [beq_iff_eq] at ha hb
    simp only [dueLe, decide_eq_true_eq, ha, hb, le_refl]
  refine ⟨?_, ?_, ?_, ?_, ?_⟩
  · rw [listTasks_no_range_hide, mem_sortByDueDate]
    simp [applySubjectFilter, List.mem_filter, Bool.not_eq_true']
  · rw [listTasks_no_range_show, mem_sortByDueDate]
    simp [applySubjectFilter]
  · intro sd
    cases sd
    · rw [listTasks_no_range_hide]
      exact pairwise_sortByDueDate _
    · rw [listTasks_no_range_show]
      exact pairwise_sortByDueDate _
  · rw [listTasks_no_range_show, filter_sortByDueDate _ _ htie]
    simp [applySubjectFilter]
  · rw [listTasks_no_range_hide, filter_sortByDueDate _ _ htie]
    simp [applySubjectFilter]

theorem no_range_listing_witness : tOpen ∈ listTasks 0 true ("") ("") [tOpen] :=
  (no_range_listing 0 [tOpen] 0 tOpen).2.1.mpr (by decide)

/-! ### Form normalization -/

lemma normalizedPriority_ne_empty (p : Option String) : normalizedPriority p ≠ ("") := by
  by_cases h : pyStrip (p.getD ("obvezno")) = ("")
  · simp [normalizedPriority, h]
  · simp [normalizedPriority, h]

/-- A form whose `task_type` field is blank (whitespace only). -/
def blankTypeForm : TaskForm :=
  { title := "t", task_type := " ", subject := "s",
    due_date := some 0, description := none, priority := none }

/-- C7 counterexample: submitting a blank `task_type` stores the empty
string — `task_type` is trimmed but never defaulted, so the stored
field can be empty. -/
theorem normalization_counterexample :
    add_task [] 7 blankTypeForm =
      some [{ id := 7, title := "t", task_type := "", subject := "s",
              due_date := 0, description := "", is_done := false,
              priority := "obvezno" }] := by
  decide

/-- C7 (amended): after add or edit, `priority` is trimmed and
defaulted when blank, hence never empty; `task_type` is only trimmed of
surrounding whitespace and may be stored empty. -/
theorem normalization_amended (store : List Task) (id task_id : Nat)
    (form : TaskForm) (s1 s2 : List Task) (u : Task) :
    (add_task store id form = some s1 → u ∈ s1 → u ∉ store →
      u.priority = normalizedPriority form.priority ∧ u.priority ≠ ("") ∧
        u.task_type = pyStrip form.task_type) ∧
    (edit_task store task_id form = some s2 → u ∈ s2 → u ∉ store →
      u.priority = normalizedPriority form.priority ∧ u.priority ≠ ("") ∧
        u.task_type = pyStrip form.task_type) := by
  constructor
  · intro h hmem hnot
    rcases hd : form.due_date with _ | d
    · simp [add_task, newTask, hd] at h
    · simp only [add_task, newTask, hd, Option.map_some', Option.some.injEq] at h
      subst h
      rcases List.mem_append.mp hmem with hm | hm
      · exact absurd hm hnot
      · rcases List.mem_singleton.mp hm with rfl
        exact ⟨rfl, normalizedPriority_ne_empty _, rfl⟩
  · intro h hmem hnot
    unfold edit_task at h
    split at h
    · rcases hd : form.due_date with _ | d
      · simp [hd] at h
      · simp only [hd, Option.map_some', Option.some.injEq] at h
        subst h
        rcases List.mem_map.mp hmem with ⟨v, hv, hfv⟩
        by_cases hid : v.id == task_id
        · rw [if_pos hid] at hfv
          subst hfv
          exact ⟨rfl, normalizedPriority_ne_empty _, rfl⟩
        · rw [if_neg hid] at hfv
          subst hfv
          exact absurd hv hnot
    · exact absurd h (by simp)

/-- The form used by the C7 witness: valid `task_type`, blank priority. -/
def okForm : TaskForm :=
  { title := "t", task_type := " Vaja ", subject := "s",
    due_date := some 3, description := none, priority := some "  " }

/-- The task that `add_task` stores for `okForm`. -/
def uOk : Task :=
  { id := 7, title := "t", task_type := "Vaja", subject := "s",
    due_date := 3, description := "", is_done := false, priority := "obvezno" }

theorem normalization_amended_witness :
    uOk.priority = normalizedPriority okForm.priority ∧ uOk.priority ≠ ("") ∧
      uOk.task_type = pyStrip okForm.task_type :=
  (normalization_amended [] 7 0 okForm [uOk] [] uOk).1 (by decide) (by decide) (by decide)

/-! ### Mark done / mark undone -/

lemma any_id_map (store : List Task) (task_id : Nat) (f : Task → Task)
    (hf : ∀ t, (f t).id = t.id) :
    (store.map f).any (fun t => t.id == task_id) =
      store.any (fun t => t.id == task_id) := by
  rw [List.any_map]
  congr 1
  funext t
  simp [Function.comp, hf]

/-- C8: marking a task done and then undone leaves the store equal to
the original with only that task's `is_done` forced to `false`; every
other field and every other task is unchanged. -/
theorem done_undone_roundtrip (store : List Task) (task_id : Nat)
    (h : store.any (fun t => t.id == task_id) = true) :
    (mark_done store task_id).bind (fun s => mark_undone s task_id) =
      some (store.map fun t =>
        if t.id == task_id then { t with is_done := false } else t) := by
  have hf : ∀ t : Task,
      ((fun t => if t.id == task_id then { t with is_done := true } else t) t).id = t.id := by
    intro t
    by_cases hid : t.id == task_id <;> simp [hid]
  rw [mark_done, if_pos h, Option.some_bind, mark_undone,
    if_pos (by rw [any_id_map _ _ _ hf]; exact h), List.map_map]
  congr 1
  apply List.map_congr_left
  intro t _
  by_cases hid : t.id == task_id <;> simp [Function.comp, hid]

theorem done_undone_roundtrip_witness :
    (mark_done [tDone] 2).bind (fun s => mark_undone s 2) =
      some [{ tDone with is_done := false }] := by
  rw [done_undone_roundtrip [tDone] 2 (by decide)]
  decide

/-- C10: `mark_done` and `mark_undone` are idempotent on the store. -/
theorem mark_idempotent (store : List Task) (task_id : Nat) :
    ((mark_done store task_id).bind (fun s => mark_done s task_id) =
      mark_done store task_id) ∧
    ((mark_undone store task_id).bind (fun s => mark_undone s task_id) =
      mark_undone store task_id) := by
  constructor
  · by_cases h : store.any (fun t => t.id == task_id) = true
    · have hf : ∀ t : Task,
          ((fun t => if t.id == task_id then { t with is_done := true } else t) t).id = t.id := by
        intro t
        by_cases hid : t.id == task_id <;> simp [hid]
      rw [mark_done, if_pos h, Option.some_bind, mark_done,
        if_pos (by rw [any_id_map _ _ _ hf]; exact h), List.map_map]
      congr 1
      apply List.map_congr_left
      intro t _
      by_cases hid : t.id == task_id <;> simp [Function.comp, hid]
    · rw [mark_done, if_neg h, Option.none_bind]
  · by_cases h : store.any (fun t => t.id == task_id) = true
    · have hf : ∀ t : Task,
          ((fun t => if t.id == task_id then { t with is_done := false } else t) t).id = t.id := by
        intro t
        by_cases hid : t.id == task_id <;> simp [hid]
      rw [mark_undone, if_pos h, Option.some_bind, mark_undone,
        if_pos (by rw [any_id_map _ _ _ hf]; exact h), List.map_map]
      congr 1
      apply List.map_congr_left
      intro t _
      by_cases hid : t.id == task_id <;> simp [Function.comp, hid]
    · rw [mark_undone, if_neg h, Option.none_bind]

end SchoolTodo
